import Mathlib

/-!
A shallow embedding of the `KeyArray` data structure from `src/lib.rs`
(crate `keyarray`): an ordered list of keys plus a cursor index `idx`
selecting the current key.

The Rust methods mutate `self` in place and signal errors by panicking
(`assert!`, or an overflow panic on `usize` arithmetic).  Here state is
passed explicitly: a mutating method becomes a function from the old
state to a `KAResult`, where `KAResult.panic` records the error kind
together with the state of the structure at the moment of the panic, so
that mutation-before-failure is observable.  Constructors, which have no
prior state, return `Except`.  Rust `usize` values are modelled as `Nat`;
the one place where `usize` subtraction can underflow (`remove`'s cursor
clamp `self.keys.len() - 1` on an empty vector) is modelled as an
explicit `arithmeticOverflow` panic, matching the overflow check of the
Rust arithmetic.
-/

/-- The panic/error kinds of the Rust code: the emptiness assertions in
`new`/`new_with`, the index bound assertions in `new_with`, `change`,
`insert`, `remove`, and the `usize` subtraction overflow in `remove`. -/
inductive KAError where
  | emptyInput
  | indexOutOfRange
  | arithmeticOverflow
  deriving Repr, DecidableEq

/-- The Rust struct `pub struct KeyArray<K> { keys: Vec<K>, idx: usize }`. -/
structure KeyArray (K : Type) where
  keys : List K
  idx : Nat
  deriving Repr, DecidableEq

/-- Outcome of one mutating method call: success with the returned value
and the new state, or a panic recording the error kind and the state the
structure was left in when the panic fired. -/
inductive KAResult (K : Type) (α : Type) where
  | ok : α → KeyArray K → KAResult K α
  | panic : KAError → KeyArray K → KAResult K α
  deriving Repr, DecidableEq

namespace KeyArray

variable {K : Type}

/-- Constructor `KeyArray::new`: collect the keys, panic if empty, start at index 0. -/
def new (keys : List K) : Except KAError (KeyArray K) :=
  if keys.isEmpty then .error .emptyInput
  else .ok ⟨keys, 0⟩

/-- Constructor `KeyArray::new_with`: collect the keys, panic if empty, then panic if
`start_idx` is not `< keys.len()`, else start at `start_idx`. -/
def new_with (keys : List K) (start_idx : Nat) : Except KAError (KeyArray K) :=
  if keys.isEmpty then .error .emptyInput
  else if start_idx < keys.length then .ok ⟨keys, start_idx⟩
  else .error .indexOutOfRange

/-- Method `KeyArray::change`: assert `i < self.keys.len()`, then `self.idx = i`. -/
def change (a : KeyArray K) (i : Nat) : KAResult K Unit :=
  if i < a.keys.length then .ok () ⟨a.keys, i⟩
  else .panic .indexOutOfRange a

/-- Method `KeyArray::current`: `&self.keys[self.idx]` (out-of-range access
yields `none`, where Rust indexing would panic). -/
def current (a : KeyArray K) : Option K :=
  a.keys[a.idx]?

/-- Method `KeyArray::current_index`. -/
def current_index (a : KeyArray K) : Nat :=
  a.idx

/-- Method `KeyArray::len`. -/
def len (a : KeyArray K) : Nat :=
  a.keys.length

/-- Method `KeyArray::push`: append at the end; the cursor is not touched. -/
def push (a : KeyArray K) (key : K) : KeyArray K :=
  ⟨a.keys ++ [key], a.idx⟩

/-- Method `KeyArray::insert`: assert `i <= self.keys.len()`, insert the key at
position `i`, then bump the cursor when `i <= self.idx`. -/
def insert (a : KeyArray K) (i : Nat) (key : K) : KAResult K Unit :=
  if i ≤ a.keys.length then
    .ok () ⟨a.keys.insertIdx i key, if i ≤ a.idx then a.idx + 1 else a.idx⟩
  else .panic .indexOutOfRange a

/-- Method `KeyArray::remove`: assert `i < self.keys.len()`, remove and keep the
key at `i`, then clamp the cursor with `self.idx = self.keys.len() - 1`
when `self.idx >= self.keys.len()`.  The clamp subtraction is `usize`
arithmetic: when the vector has become empty it is `0 - 1` and panics,
with the key already removed. -/
def remove (a : KeyArray K) (i : Nat) : KAResult K K :=
  if h : i < a.keys.length then
    let removed := a.keys.get ⟨i, h⟩
    let keys2 := a.keys.eraseIdx i
    if keys2.length ≤ a.idx then
      if keys2.length = 0 then .panic .arithmeticOverflow ⟨keys2, a.idx⟩
      else .ok removed ⟨keys2, keys2.length - 1⟩
    else .ok removed ⟨keys2, a.idx⟩
  else .panic .indexOutOfRange a

/-- The documented invariant: the key list is non-empty and the cursor
points at a valid element. -/
def Valid (a : KeyArray K) : Prop :=
  a.keys ≠ [] ∧ a.idx < a.keys.length

instance (a : KeyArray K) : Decidable a.Valid :=
  decidable_of_iff (0 < a.keys.length ∧ a.idx < a.keys.length)
    (by rw [List.length_pos]; exact Iff.rfl)

/-- Strong exception safety of one call on state `a`: the call either
succeeds in a valid state or panics with the structure exactly as it
was before the call. -/
def stateSafe (a : KeyArray K) {α : Type} (r : KAResult K α) : Prop :=
  match r with
  | .ok _ b => b.Valid
  | .panic _ s => s = a

end KeyArray

/-- States reachable from a successful construction by successful
operations. -/
inductive Reachable {K : Type} : KeyArray K → Prop where
  | ctor : ∀ (S : List K) a, KeyArray.new S = Except.ok a → Reachable a
  | ctorAt : ∀ (S : List K) k a, KeyArray.new_with S k = Except.ok a → Reachable a
  | step_change : ∀ a i b, Reachable a → a.change i = .ok () b → Reachable b
  | step_push : ∀ a x, Reachable a → Reachable (a.push x)
  | step_insert : ∀ a i x b, Reachable a → a.insert i x = .ok () b → Reachable b
  | step_remove : ∀ a i r b, Reachable a → a.remove i = .ok r b → Reachable b

namespace KeyArray

variable {K : Type}

/-- Closed form of a successful `remove`: when the index is in range and
at least two keys are present, `remove` returns the key at `i` and the
cursor is clamped to the new last index exactly when it was at or past
the new length. -/
theorem remove_eq_of_lt (a : KeyArray K) (i : Nat) (h : i < a.keys.length)
    (h2 : 2 ≤ a.keys.length) :
    a.remove i = .ok (a.keys.get ⟨i, h⟩)
      ⟨a.keys.eraseIdx i,
        if a.keys.length - 1 ≤ a.idx then a.keys.length - 2 else a.idx⟩ := by
  have hl : (a.keys.eraseIdx i).length = a.keys.length - 1 :=
    List.length_eraseIdx_of_lt h
  rw [KeyArray.remove, dif_pos h]
  by_cases hc : (a.keys.eraseIdx i).length ≤ a.idx
  · have hc2 : a.keys.length - 1 ≤ a.idx := by omega
    have hz : ¬ (a.keys.eraseIdx i).length = 0 := by omega
    simp only [hc, if_pos, if_neg hz, hl, if_pos hc2]
    rw [if_neg (by omega : ¬ a.keys.length - 1 = 0)]
    have he : a.keys.length - 1 - 1 = a.keys.length - 2 := by omega
    rw [he]
  · have hc2 : ¬ a.keys.length - 1 ≤ a.idx := by omega
    simp only [if_neg hc, if_neg hc2]

/-- Behavior of `remove 0` on a one-element state: the key is erased and the cursor
clamp `0 - 1` dies in the overflow panic, with the vector already
empty. -/
theorem remove_singleton_eq (a : KeyArray K) (h : a.keys.length = 1) :
    a.remove 0 = .panic .arithmeticOverflow ⟨[], a.idx⟩ := by
  obtain ⟨keys, idx⟩ := a
  obtain ⟨x, hx⟩ := List.length_eq_one.mp h
  subst hx
  simp [KeyArray.remove]

/-- Inversion of a successful `remove`. -/
theorem remove_ok_inv (a b : KeyArray K) (i : Nat) (r : K)
    (h : a.remove i = .ok r b) :
    ∃ h1 : i < a.keys.length, 2 ≤ a.keys.length ∧ r = a.keys.get ⟨i, h1⟩ ∧
      b = ⟨a.keys.eraseIdx i,
        if a.keys.length - 1 ≤ a.idx then a.keys.length - 2 else a.idx⟩ := by
  by_cases h1 : i < a.keys.length
  · have hl : (a.keys.eraseIdx i).length = a.keys.length - 1 :=
      List.length_eraseIdx_of_lt h1
    by_cases h2 : 2 ≤ a.keys.length
    · rw [remove_eq_of_lt a i h1 h2] at h
      exact ⟨h1, h2, by cases h; exact rfl, by cases h; exact rfl⟩
    · exfalso
      have hlen : a.keys.length = 1 := by omega
      have hz : (a.keys.eraseIdx i).length = 0 := by omega
      rw [KeyArray.remove, dif_pos h1] at h
      have hc : (a.keys.eraseIdx i).length ≤ a.idx := by omega
      simp only [hc, if_pos, if_pos hz] at h
      cases h
  · rw [KeyArray.remove, dif_neg h1] at h
    cases h

/-- A state produced by a successful `remove` satisfies the invariant. -/
theorem remove_ok_valid (a b : KeyArray K) (i : Nat) (r : K)
    (h : a.remove i = .ok r b) : b.Valid := by
  obtain ⟨h1, h2, -, rfl⟩ := remove_ok_inv a b i r h
  have hl : (a.keys.eraseIdx i).length = a.keys.length - 1 :=
    List.length_eraseIdx_of_lt h1
  refine ⟨?_, ?_⟩
  · show a.keys.eraseIdx i ≠ []
    rw [← List.length_pos]
    omega
  · show (if a.keys.length - 1 ≤ a.idx then a.keys.length - 2 else a.idx) <
      (a.keys.eraseIdx i).length
    rw [hl]
    split <;> omega

/-- A state produced by a successful `change` satisfies the invariant. -/
theorem change_ok_valid (a b : KeyArray K) (i : Nat)
    (h : a.change i = .ok () b) : b.Valid := by
  by_cases hc : i < a.keys.length
  · rw [KeyArray.change, if_pos hc] at h
    cases h
    refine ⟨?_, hc⟩
    show a.keys ≠ []
    rw [← List.length_pos]
    omega
  · rw [KeyArray.change, if_neg hc] at h
    cases h

/-- `push` preserves the invariant. -/
theorem push_valid (a : KeyArray K) (x : K) (h : a.Valid) :
    (a.push x).Valid := by
  refine ⟨by simp [KeyArray.push], ?_⟩
  simp only [KeyArray.push, List.length_append, List.length_cons,
    List.length_nil]
  have := h.2
  omega

/-- A state produced by a successful `insert` on a valid state satisfies
the invariant. -/
theorem insert_ok_valid (a b : KeyArray K) (i : Nat) (x : K)
    (hv : a.Valid) (h : a.insert i x = .ok () b) : b.Valid := by
  by_cases hc : i ≤ a.keys.length
  · rw [KeyArray.insert, if_pos hc] at h
    cases h
    have hl : (a.keys.insertIdx i x).length = a.keys.length + 1 :=
      List.length_insertIdx i a.keys hc
    refine ⟨?_, ?_⟩
    · show a.keys.insertIdx i x ≠ []
      rw [← List.length_pos]
      omega
    · show (if i ≤ a.idx then a.idx + 1 else a.idx) <
        (a.keys.insertIdx i x).length
      rw [hl]
      have := hv.2
      split <;> omega
  · rw [KeyArray.insert, if_neg hc] at h
    cases h

/-- A successful construction satisfies the invariant. -/
theorem new_ok_valid (S : List K) (b : KeyArray K)
    (h : KeyArray.new S = Except.ok b) : b.Valid := by
  by_cases hc : S.isEmpty
  · rw [KeyArray.new, if_pos hc] at h
    cases h
  · rw [KeyArray.new, if_neg hc] at h
    cases h
    have hne : S ≠ [] := by
      intro hS
      exact hc (by simp [hS])
    exact ⟨hne, List.length_pos.mpr hne⟩

/-- A successful construction with a start index satisfies the
invariant. -/
theorem new_with_ok_valid (S : List K) (k : Nat) (b : KeyArray K)
    (h : KeyArray.new_with S k = Except.ok b) : b.Valid := by
  by_cases hc : S.isEmpty
  · rw [KeyArray.new_with, if_pos hc] at h
    cases h
  · rw [KeyArray.new_with, if_neg hc] at h
    by_cases hk : k < S.length
    · rw [if_pos hk] at h
      cases h
      have hne : S ≠ [] := by
        intro hS
        exact hc (by simp [hS])
      exact ⟨hne, hk⟩
    · rw [if_neg hk] at h
      cases h

/-- Every reachable state satisfies the invariant. -/
theorem reachable_valid (a : KeyArray K) (h : Reachable a) : a.Valid := by
  induction h with
  | ctor S a hS => exact new_ok_valid S a hS
  | ctorAt S k a hS => exact new_with_ok_valid S k a hS
  | step_change a i b _ hab _ => exact change_ok_valid a b i hab
  | step_push a x _ ih => exact push_valid a x ih
  | step_insert a i x b _ hab ih => exact insert_ok_valid a b i x ih hab
  | step_remove a i r b _ hab _ => exact remove_ok_valid a b i r hab

end KeyArray

/-- C7: `selectIndex(i)` (`KeyArray::change`) with `i < length` sets the
cursor to `i` and leaves the key sequence unchanged; with `i >= length`
it fails with the index-out-of-range panic, leaving the whole structure
(cursor and keys) unchanged. -/
theorem C7_selectIndex (K : Type) (a : KeyArray K) (i : Nat) :
    (i < a.keys.length → a.change i = .ok () ⟨a.keys, i⟩) ∧
    (a.keys.length ≤ i → a.change i = .panic .indexOutOfRange a) := by
  constructor
  · intro h
    rw [KeyArray.change, if_pos h]
  · intro h
    rw [KeyArray.change, if_neg (Nat.not_lt.mpr h)]

/-- Witness for C7 at concrete inputs: one in-range call and one
out-of-range call. -/
theorem C7_selectIndex_witness :
    (⟨[1, 2], 0⟩ : KeyArray Nat).change 1 = .ok () ⟨[1, 2], 1⟩ ∧
    (⟨[1, 2], 0⟩ : KeyArray Nat).change 5 = .panic .indexOutOfRange ⟨[1, 2], 0⟩ :=
  ⟨(C7_selectIndex Nat ⟨[1, 2], 0⟩ 1).1 (by decide),
   (C7_selectIndex Nat ⟨[1, 2], 0⟩ 5).2 (by decide)⟩

/-- C8: `create(S)` (`KeyArray::new`) on a non-empty sequence succeeds
with cursor 0 and current item `S[0]`; on the empty sequence it fails
with the empty-input panic. -/
theorem C8_create (K : Type) (S : List K) :
    (∀ h : S ≠ [],
      KeyArray.new S = Except.ok ⟨S, 0⟩ ∧
      KeyArray.current_index ⟨S, 0⟩ = 0 ∧
      KeyArray.current ⟨S, 0⟩ = some (S.head h)) ∧
    (S = [] → KeyArray.new S = Except.error KAError.emptyInput) := by
  constructor
  · intro h
    refine ⟨?_, rfl, ?_⟩
    · rw [KeyArray.new, if_neg (by simp [h])]
    · cases S with
      | nil => exact absurd rfl h
      | cons x t => simp [KeyArray.current]
  · intro h
    subst h
    rfl

/-- Witness for C8: a concrete non-empty sequence and the empty one. -/
theorem C8_create_witness :
    (KeyArray.new [5, 6] = Except.ok (⟨[5, 6], 0⟩ : KeyArray Nat) ∧
      KeyArray.current_index (⟨[5, 6], 0⟩ : KeyArray Nat) = 0 ∧
      KeyArray.current (⟨[5, 6], 0⟩ : KeyArray Nat) = some 5) ∧
    KeyArray.new ([] : List Nat) = Except.error KAError.emptyInput :=
  ⟨(C8_create Nat [5, 6]).1 (by decide), (C8_create Nat []).2 rfl⟩

/-- C9: `createAt(S, k)` (`KeyArray::new_with`) on a non-empty sequence
with `k < S.length` succeeds with cursor `k`; with `k >= S.length` it
fails with the index-out-of-range panic; on the empty sequence it fails
with the empty-input panic for any `k`. -/
theorem C9_createAt (K : Type) (S : List K) (k : Nat) :
    (S ≠ [] → k < S.length →
      KeyArray.new_with S k = Except.ok ⟨S, k⟩ ∧
      KeyArray.current_index ⟨S, k⟩ = k) ∧
    (S ≠ [] → S.length ≤ k →
      KeyArray.new_with S k = Except.error KAError.indexOutOfRange) ∧
    (S = [] → KeyArray.new_with S k = Except.error KAError.emptyInput) := by
  refine ⟨?_, ?_, ?_⟩
  · intro h hk
    refine ⟨?_, rfl⟩
    rw [KeyArray.new_with, if_neg (by simp [h]), if_pos hk]
  · intro h hk
    rw [KeyArray.new_with, if_neg (by simp [h]), if_neg (Nat.not_lt.mpr hk)]
  · intro h
    subst h
    rfl

/-- Witness for C9: in-range start, out-of-range start, and empty input. -/
theorem C9_createAt_witness :
    (KeyArray.new_with [5, 6] 1 = Except.ok (⟨[5, 6], 1⟩ : KeyArray Nat) ∧
      KeyArray.current_index (⟨[5, 6], 1⟩ : KeyArray Nat) = 1) ∧
    KeyArray.new_with [5, 6] 9 = Except.error KAError.indexOutOfRange ∧
    KeyArray.new_with ([] : List Nat) 0 = Except.error KAError.emptyInput :=
  ⟨(C9_createAt Nat [5, 6] 1).1 (by decide) (by decide),
   (C9_createAt Nat [5, 6] 9).2.1 (by decide) (by decide),
   (C9_createAt Nat [] 0).2.2 rfl⟩

/-- C10: `append(x)` (`KeyArray::push`) on a valid state increases the
length by 1, places `x` at the new last index, and leaves the cursor and
therefore the current item unchanged. -/
theorem C10_append (K : Type) (a : KeyArray K) (x : K) (h : a.Valid) :
    (a.push x).len = a.len + 1 ∧
    ((a.push x).keys)[(a.push x).len - 1]? = some x ∧
    (a.push x).current_index = a.current_index ∧
    (a.push x).current = a.current := by
  refine ⟨?_, ?_, rfl, ?_⟩
  · show (a.keys ++ [x]).length = a.keys.length + 1
    simp
  · show (a.keys ++ [x])[(a.keys ++ [x]).length - 1]? = some x
    have hlen : (a.keys ++ [x]).length - 1 = a.keys.length := by simp
    rw [hlen]
    exact List.getElem?_concat_length a.keys x
  · show (a.keys ++ [x])[a.idx]? = a.keys[a.idx]?
    rw [List.getElem?_append, if_pos h.2]

/-- Witness for C10 at a concrete valid state. -/
theorem C10_append_witness :
    ((⟨[2, 4], 1⟩ : KeyArray Nat).push 6).len = (⟨[2, 4], 1⟩ : KeyArray Nat).len + 1 ∧
    (((⟨[2, 4], 1⟩ : KeyArray Nat).push 6).keys)[((⟨[2, 4], 1⟩ : KeyArray Nat).push 6).len - 1]? = some 6 ∧
    ((⟨[2, 4], 1⟩ : KeyArray Nat).push 6).current_index = (⟨[2, 4], 1⟩ : KeyArray Nat).current_index ∧
    ((⟨[2, 4], 1⟩ : KeyArray Nat).push 6).current = (⟨[2, 4], 1⟩ : KeyArray Nat).current :=
  C10_append Nat ⟨[2, 4], 1⟩ 6 (by decide)

/-- C6: `insertAt(i, x)` (`KeyArray::insert`) with `i <= length`
succeeds, increases the length by 1, makes the item at index `i` equal
to `x`, and bumps the cursor by 1 exactly when `i <= cursor`; with
`i > length` it fails with the index-out-of-range panic, leaving the
structure unchanged. -/
theorem C6_insertAt (K : Type) (a : KeyArray K) (i : Nat) (x : K) :
    (i ≤ a.keys.length →
      a.insert i x =
        .ok () ⟨a.keys.insertIdx i x, if i ≤ a.idx then a.idx + 1 else a.idx⟩ ∧
      (a.keys.insertIdx i x).length = a.keys.length + 1 ∧
      (a.keys.insertIdx i x)[i]? = some x) ∧
    (a.keys.length < i → a.insert i x = .panic .indexOutOfRange a) := by
  constructor
  · intro h
    have hl : (a.keys.insertIdx i x).length = a.keys.length + 1 :=
      List.length_insertIdx i a.keys h
    refine ⟨?_, hl, ?_⟩
    · rw [KeyArray.insert, if_pos h]
    · have hi : i < (a.keys.insertIdx i x).length := by omega
      rw [List.getElem?_eq_getElem hi]
      exact congrArg some (List.getElem_insertIdx_self a.keys x i h)
  · intro h
    rw [KeyArray.insert, if_neg (Nat.not_le.mpr h)]

/-- Witness for C6: an insertion at or before the cursor, and an
out-of-range insertion. -/
theorem C6_insertAt_witness :
    ((⟨[1, 2, 3], 1⟩ : KeyArray Nat).insert 1 9 = .ok () ⟨[1, 9, 2, 3], 2⟩ ∧
      (([1, 2, 3] : List Nat).insertIdx 1 9).length = 3 + 1 ∧
      (([1, 2, 3] : List Nat).insertIdx 1 9)[1]? = some 9) ∧
    (⟨[1, 2, 3], 1⟩ : KeyArray Nat).insert 7 9 = .panic .indexOutOfRange ⟨[1, 2, 3], 1⟩ :=
  ⟨(C6_insertAt Nat ⟨[1, 2, 3], 1⟩ 1 9).1 (by decide),
   (C6_insertAt Nat ⟨[1, 2, 3], 1⟩ 7 9).2 (by decide)⟩

/-- C3: removing the only element: on any `KeyArray` with exactly one
key, `remove 0` first erases the key (leaving the vector empty) and then
the cursor clamp `keys.len() - 1` is `0 - 1` on an unsigned integer, so
the call ends in the arithmetic-overflow panic with the key already
gone — it cannot complete in a valid state. -/
theorem C3_remove_last_underflow (K : Type) (a : KeyArray K)
    (h : a.keys.length = 1) :
    a.remove 0 = .panic .arithmeticOverflow ⟨[], a.idx⟩ :=
  KeyArray.remove_singleton_eq a h

/-- Witness for C3 at a concrete one-element state. -/
theorem C3_remove_last_underflow_witness :
    (⟨[7], 0⟩ : KeyArray Nat).remove 0 = .panic .arithmeticOverflow ⟨[], 0⟩ :=
  C3_remove_last_underflow Nat ⟨[7], 0⟩ rfl

/-- C5 counterexample: the claim quantifies over every `KeyArray` and
every `i < length`, but on the one-element state `⟨[5], 0⟩` the in-range
call `remove 0` does not return the removed item in a new state: it ends
in the arithmetic-overflow panic. -/
theorem C5_removeAt_cex :
    0 < (⟨[5], 0⟩ : KeyArray Nat).len ∧
    (⟨[5], 0⟩ : KeyArray Nat).remove 0 = .panic .arithmeticOverflow ⟨[], 0⟩ := by
  decide

/-- C5 (amended): on a `KeyArray` with at least two keys, `removeAt(i)`
(`KeyArray::remove`) with `i < length` succeeds, returns the key that
was at index `i`, decreases the length by 1, and clamps the cursor to
the new `length - 1` exactly when the cursor is at or past the new
length; with `i >= length` it fails with the index-out-of-range panic,
leaving the structure unchanged.  (On a one-element `KeyArray` the
in-range call instead dies in the clamp underflow; see the
counterexample.) -/
theorem C5_removeAt (K : Type) (a : KeyArray K) (i : Nat)
    (h2 : 2 ≤ a.keys.length) :
    (∀ h : i < a.keys.length,
      a.remove i = .ok (a.keys.get ⟨i, h⟩)
        ⟨a.keys.eraseIdx i,
          if a.keys.length - 1 ≤ a.idx then a.keys.length - 2 else a.idx⟩ ∧
      (a.keys.eraseIdx i).length = a.keys.length - 1) ∧
    (a.keys.length ≤ i → a.remove i = .panic .indexOutOfRange a) := by
  constructor
  · intro h
    exact ⟨KeyArray.remove_eq_of_lt a i h h2, List.length_eraseIdx_of_lt h⟩
  · intro h
    rw [KeyArray.remove, dif_neg (Nat.not_lt.mpr h)]

/-- Witness for C5: an in-range removal on a two-element state and an
out-of-range one. -/
theorem C5_removeAt_witness :
    ((⟨[8, 9], 0⟩ : KeyArray Nat).remove 1 = .ok 9 ⟨[8], 0⟩ ∧
      (([8, 9] : List Nat).eraseIdx 1).length = 2 - 1) ∧
    (⟨[8, 9], 0⟩ : KeyArray Nat).remove 5 = .panic .indexOutOfRange ⟨[8, 9], 0⟩ :=
  ⟨(C5_removeAt Nat ⟨[8, 9], 0⟩ 1 (by decide)).1 (by decide),
   (C5_removeAt Nat ⟨[8, 9], 0⟩ 5 (by decide)).2 (by decide)⟩

/-- C4 counterexample: on `⟨[10, 20], 1⟩` (two elements, cursor 1) the
call `remove 0` removes an element strictly before the cursor, yet the
cursor does not stay numerically unchanged: the clamp fires (the cursor
was at the last position) and moves it from 1 to 0. -/
theorem C4_remove_before_cursor_cex :
    2 ≤ (⟨[10, 20], 1⟩ : KeyArray Nat).keys.length ∧
    0 < (⟨[10, 20], 1⟩ : KeyArray Nat).current_index ∧
    (⟨[10, 20], 1⟩ : KeyArray Nat).remove 0 = .ok 10 ⟨[20], 0⟩ ∧
    KeyArray.current_index ⟨[20], 0⟩ ≠ (⟨[10, 20], 1⟩ : KeyArray Nat).current_index := by
  decide

/-- C4 (amended): on a `KeyArray` with at least two keys, removing at an
index strictly below the cursor leaves the cursor numerically unchanged
unless the cursor was at the last position (`cursor = length - 1`), in
which case the clamp decrements it by one. -/
theorem C4_remove_before_cursor (K : Type) (a : KeyArray K) (i : Nat)
    (h2 : 2 ≤ a.keys.length) (hi : i < a.idx) (hv : a.idx < a.keys.length) :
    a.remove i = .ok (a.keys.get ⟨i, Nat.lt_trans hi hv⟩)
      ⟨a.keys.eraseIdx i,
        if a.idx = a.keys.length - 1 then a.idx - 1 else a.idx⟩ := by
  rw [KeyArray.remove_eq_of_lt a i (Nat.lt_trans hi hv) h2]
  have he : (if a.keys.length - 1 ≤ a.idx then a.keys.length - 2 else a.idx) =
      (if a.idx = a.keys.length - 1 then a.idx - 1 else a.idx) := by
    split_ifs <;> omega
  rw [he]

/-- Witness for C4 at a concrete state where the cursor is away from the
last position, so it stays numerically unchanged. -/
theorem C4_remove_before_cursor_witness :
    (⟨[10, 20, 30], 1⟩ : KeyArray Nat).remove 0 = .ok 10 ⟨[20, 30], 1⟩ :=
  C4_remove_before_cursor Nat ⟨[10, 20, 30], 1⟩ 0 (by decide) (by decide) (by decide)

/-- C2: every state reachable from a successful construction by
successful operations satisfies the invariant (the key list is non-empty
and the cursor points at a valid element), and each operation — change,
push, insert, remove — preserves the invariant whenever it succeeds. -/
theorem C2_invariant (K : Type) (a : KeyArray K) (h : Reachable a) :
    a.Valid ∧
    (∀ i b, a.change i = .ok () b → b.Valid) ∧
    (∀ x, (a.push x).Valid) ∧
    (∀ i x b, a.insert i x = .ok () b → b.Valid) ∧
    (∀ i r b, a.remove i = .ok r b → b.Valid) := by
  have hv : a.Valid := KeyArray.reachable_valid a h
  refine ⟨hv, ?_, ?_, ?_, ?_⟩
  · intro i b hb
    exact KeyArray.change_ok_valid a b i hb
  · intro x
    exact KeyArray.push_valid a x hv
  · intro i x b hb
    exact KeyArray.insert_ok_valid a b i x hv hb
  · intro i r b hb
    exact KeyArray.remove_ok_valid a b i r hb

/-- Witness for C2 at the reachable state built by `new [1]`. -/
theorem C2_invariant_witness :
    (⟨[1], 0⟩ : KeyArray Nat).Valid ∧
    (∀ i b, (⟨[1], 0⟩ : KeyArray Nat).change i = .ok () b → b.Valid) ∧
    (∀ x, ((⟨[1], 0⟩ : KeyArray Nat).push x).Valid) ∧
    (∀ i x b, (⟨[1], 0⟩ : KeyArray Nat).insert i x = .ok () b → b.Valid) ∧
    (∀ i r b, (⟨[1], 0⟩ : KeyArray Nat).remove i = .ok r b → b.Valid) :=
  C2_invariant Nat ⟨[1], 0⟩ (Reachable.ctor [1] ⟨[1], 0⟩ rfl)

/-- C1 counterexample: `⟨[3], 0⟩` is a valid one-element state, and the
in-range call `remove 0` neither completes nor leaves the structure
unmodified: it fails in the clamp underflow with the key already erased,
so the state at the panic differs from the state before the call. -/
theorem C1_exception_safety_cex :
    (⟨[3], 0⟩ : KeyArray Nat).Valid ∧
    (⟨[3], 0⟩ : KeyArray Nat).remove 0 = .panic .arithmeticOverflow ⟨[], 0⟩ ∧
    (⟨[], 0⟩ : KeyArray Nat) ≠ ⟨[3], 0⟩ := by
  decide

/-- C1 (amended): on a valid state, `change` and `insert` either succeed
in a valid state or panic with the structure unchanged, constructions
yield valid states when they succeed, and `remove` has the same strong
exception safety whenever at least two keys are present; the one
exception is `remove` on a one-element state, which passes its bound
check, erases the key, and only then dies in the clamp underflow,
leaving the keys mutated (empty). -/
theorem C1_exception_safety (K : Type) (a : KeyArray K) (h : a.Valid) :
    (∀ (S : List K) b, KeyArray.new S = Except.ok b → b.Valid) ∧
    (∀ (S : List K) k b, KeyArray.new_with S k = Except.ok b → b.Valid) ∧
    (∀ i, a.stateSafe (a.change i)) ∧
    (∀ i x, a.stateSafe (a.insert i x)) ∧
    (∀ i, 2 ≤ a.keys.length → a.stateSafe (a.remove i)) ∧
    (a.keys.length = 1 →
      a.remove 0 = .panic .arithmeticOverflow ⟨[], a.idx⟩ ∧
      (⟨[], a.idx⟩ : KeyArray K) ≠ a) := by
  refine ⟨?_, ?_, ?_, ?_, ?_, ?_⟩
  · intro S b hb
    exact KeyArray.new_ok_valid S b hb
  · intro S k b hb
    exact KeyArray.new_with_ok_valid S k b hb
  · intro i
    by_cases hc : i < a.keys.length
    · rw [KeyArray.change, if_pos hc]
      show (⟨a.keys, i⟩ : KeyArray K).Valid
      exact ⟨h.1, hc⟩
    · rw [KeyArray.change, if_neg hc]
      show a = a
      rfl
  · intro i x
    by_cases hc : i ≤ a.keys.length
    · rw [KeyArray.insert, if_pos hc]
      show KeyArray.Valid _
      exact KeyArray.insert_ok_valid a _ i x h (by rw [KeyArray.insert, if_pos hc])
    · rw [KeyArray.insert, if_neg hc]
      show a = a
      rfl
  · intro i h2
    by_cases hc : i < a.keys.length
    · rw [KeyArray.remove_eq_of_lt a i hc h2]
      show KeyArray.Valid _
      exact KeyArray.remove_ok_valid a _ i _ (KeyArray.remove_eq_of_lt a i hc h2)
    · rw [KeyArray.remove, dif_neg hc]
      show a = a
      rfl
  · intro h1
    refine ⟨KeyArray.remove_singleton_eq a h1, ?_⟩
    intro heq
    exact h.1 (congrArg KeyArray.keys heq).symm

/-- Witness for C1 at the concrete valid state `⟨[1, 2], 0⟩`. -/
theorem C1_exception_safety_witness :
    (∀ (S : List Nat) b, KeyArray.new S = Except.ok b → b.Valid) ∧
    (∀ (S : List Nat) k b, KeyArray.new_with S k = Except.ok b → b.Valid) ∧
    (∀ i, (⟨[1, 2], 0⟩ : KeyArray Nat).stateSafe ((⟨[1, 2], 0⟩ : KeyArray Nat).change i)) ∧
    (∀ i x, (⟨[1, 2], 0⟩ : KeyArray Nat).stateSafe ((⟨[1, 2], 0⟩ : KeyArray Nat).insert i x)) ∧
    (∀ i, 2 ≤ (⟨[1, 2], 0⟩ : KeyArray Nat).keys.length →
      (⟨[1, 2], 0⟩ : KeyArray Nat).stateSafe ((⟨[1, 2], 0⟩ : KeyArray Nat).remove i)) ∧
    ((⟨[1, 2], 0⟩ : KeyArray Nat).keys.length = 1 →
      (⟨[1, 2], 0⟩ : KeyArray Nat).remove 0 = .panic .arithmeticOverflow ⟨[], 0⟩ ∧
      (⟨[], 0⟩ : KeyArray Nat) ≠ ⟨[1, 2], 0⟩) :=
  C1_exception_safety Nat ⟨[1, 2], 0⟩ (by decide)
